import Mathlib

/-!
Verification of the real-time collaboration core of the wiki-jam repository.

The definitions below are a shallow embedding of the server-side logic of
src/backend/sharedbServer.js and src/backend/yjsServer.js.  JavaScript `Map`
objects keyed by WebSocket connections are modelled as association lists
keyed by a `Nat` connection identity (reference identity of the `ws` object);
`Map` iteration order (insertion order, with in-place overwrite) is preserved
by the list encoding.  JavaScript strings are modelled as `String`, and, for
the suffix-stripping logic, as `List Char`.  Possibly-undefined JSON number
fields are modelled as `Option Int` with `none` standing for `undefined`.
-/

set_option maxHeartbeats 1000000

/-! ## Presence channel (sharedbServer.js, `/presence` connections)

sharedbServer.js keeps a module-level `connections` map from each presence
WebSocket to its user-info record (line 34).  The record fields are exactly
those stored by the "user-info" handler (lines 53-60).
-/

/-- One value of the `connections` map: the record stored for a registered
presence connection (sharedbServer.js lines 53-60).  Cursor fields are
`Option Int` because the "cursor-update" handler stores the incoming JSON
values as-is, and those may be `undefined`. -/
structure UserInfo where
  userId : String
  userName : String
  color : String
  filename : String
  cursorPosition : Option Int
  selectionEnd : Option Int
deriving DecidableEq

/-- The `connections` map of sharedbServer.js line 34: association list from
connection identity to its stored record, in `Map` insertion order. -/
abbrev Conns := List (Nat × UserInfo)

/-- A member of `wss.clients`: connection identity plus its `readyState`
(`WebSocket.OPEN` is `1`). -/
structure WsClient where
  id : Nat
  readyState : Nat
deriving DecidableEq

/-- A successfully JSON-parsed presence frame.  `userInfo` and `cursorUpdate`
carry the fields the handler reads (sharedbServer.js lines 52-71); any other
parsed object falls into `otherType` and is ignored by the handler. -/
inductive PresenceData where
  | userInfo (userId userName color filename : String)
      (cursorPosition selectionEnd : Option Int)
  | cursorUpdate (userId filename : String)
      (cursorPosition selectionEnd : Option Int)
  | otherType
deriving DecidableEq

/-- JavaScript `x || 0` on a possibly-undefined number: `undefined` and `0`
are falsy and give `0`; any other number is returned itself. -/
def jsNumOrZero : Option Int → Int
  | none => 0
  | some n => if n = 0 then 0 else n

/-- `Map.set`: overwrite the entry in place if the key is present, else
append a new entry at the end (JS `Map` insertion order). -/
def setEntry : Conns → Nat → UserInfo → Conns
  | [], ws, info => [(ws, info)]
  | e :: rest, ws, info =>
    if e.1 = ws then (ws, info) :: rest else e :: setEntry rest ws info

/-- `Map.delete`: remove the entry of the given key. -/
def eraseEntry (conns : Conns) (ws : Nat) : Conns :=
  conns.filter (fun e => e.1 != ws)

/-- The "presence" message built by `broadcastPresence`
(sharedbServer.js lines 243-247): `users` is `Array.from(connections.values())`. -/
structure PresenceBroadcast where
  users : List UserInfo
deriving DecidableEq

/-- `broadcastPresence(wss)` (sharedbServer.js lines 242-254): the full list
of stored records is sent to every member of `wss.clients` whose
`readyState` is `WebSocket.OPEN`, with no filtering by document. -/
def broadcastPresence (conns : Conns) (clients : List WsClient) :
    List (Nat × PresenceBroadcast) :=
  (clients.filter (fun c => c.readyState == 1)).map
    (fun c => (c.id, ⟨conns.map Prod.snd⟩))

/-- Observable outcome of one presence-channel event: the new `connections`
map, the `client.send` calls made, and the connections closed by the server.
The message handler of sharedbServer.js lines 48-75 contains no `ws.close`
call, so `closedByServer` is produced empty on every branch. -/
structure PresenceStep where
  conns : Conns
  sends : List (Nat × PresenceBroadcast)
  closedByServer : List Nat
deriving DecidableEq

/-- The `ws.on('message', ...)` handler for `/presence` connections
(sharedbServer.js lines 48-75).  `frame = none` models a frame on which
`JSON.parse` throws: the `catch` at lines 72-74 only logs the error. -/
def handlePresenceMessage (conns : Conns) (clients : List WsClient)
    (ws : Nat) (frame : Option PresenceData) : PresenceStep :=
  match frame with
  | none => ⟨conns, [], []⟩
  | some (.userInfo uid uname color fname cp se) =>
    let conns1 := setEntry conns ws
      ⟨uid, uname, color, fname, some (jsNumOrZero cp), some (jsNumOrZero se)⟩
    ⟨conns1, broadcastPresence conns1 clients, []⟩
  | some (.cursorUpdate _uid fname cp se) =>
    match List.lookup ws conns with
    | some info =>
      let conns1 := setEntry conns ws
        ⟨info.userId, info.userName, info.color, fname, cp, se⟩
      ⟨conns1, broadcastPresence conns1 clients, []⟩
    | none => ⟨conns, [], []⟩
  | some .otherType => ⟨conns, [], []⟩

/-- The `ws.on('close', ...)` handler for `/presence` connections
(sharedbServer.js lines 77-81): delete the entry, then broadcast. -/
def handlePresenceClose (conns : Conns) (clients : List WsClient)
    (ws : Nat) : PresenceStep :=
  let conns1 := eraseEntry conns ws
  ⟨conns1, broadcastPresence conns1 clients, []⟩

/-- An event on the presence channel: an incoming frame from a connection,
or a transport close of a connection. -/
inductive PresenceEvent where
  | msg (ws : Nat) (frame : Option PresenceData)
  | close (ws : Nat)
deriving DecidableEq

/-- The connection an event originates from. -/
def eventWs : PresenceEvent → Nat
  | .msg ws _ => ws
  | .close ws => ws

/-- Dispatch one presence event to its handler. -/
def presenceStepOf (conns : Conns) (clients : List WsClient) :
    PresenceEvent → PresenceStep
  | .msg ws frame => handlePresenceMessage conns clients ws frame
  | .close ws => handlePresenceClose conns clients ws

/-- Run a sequence of presence events, collecting the step outcomes in order. -/
def presenceRunSteps (clients : List WsClient) :
    List PresenceEvent → Conns → List PresenceStep
  | [], _ => []
  | e :: es, conns =>
    let s := presenceStepOf conns clients e
    s :: presenceRunSteps clients es s.conns

/-! ## Operational-transform channel (yjsServer.js)

Each connection carries the document name extracted from its URL; the
handler tags the socket with `ws.docName` (yjsServer.js line 126). -/

/-- A member of `wss.clients` on the Yjs server: connection identity
(reference identity of the socket object), its `docName` tag, and its
`readyState`. -/
structure YClient where
  id : Nat
  docName : String
  readyState : Nat
deriving DecidableEq

/-- A decoded Yjs frame, by the message type read at yjsServer.js line 59.
`update` and `awareness` carry an opaque payload standing for the raw bytes
that get re-broadcast verbatim. -/
inductive YjsMsg where
  | syncStep1
  | syncStep2
  | update (payload : Nat)
  | awareness (payload : Nat)
  | unknown (t : Nat)
deriving DecidableEq

/-- `broadcastMessage(wss, sender, docName, message)`
(yjsServer.js lines 130-138): every client other than the sender whose
`docName` equals the document and whose `readyState` is `1` receives the
message.  `client !== sender` is reference identity, modelled by `id`. -/
def broadcastMessage (clients : List YClient) (sender : YClient)
    (docName : String) : List YClient :=
  clients.filter
    (fun c => c.id != sender.id && c.docName == docName && c.readyState == 1)

/-- Observable outcome of one Yjs message event: the clients the frame is
broadcast to, the frame broadcast to them (`none` when no broadcast
happens), replies sent back to the sender, whether the shared document was
mutated, and connections closed by the server.  The message handler of
yjsServer.js lines 54-95 contains no `ws.close` call, so `closed` is
produced empty on every branch. -/
structure YjsStep where
  broadcastTargets : List YClient
  broadcastFrame : Option YjsMsg
  replyToSender : List YjsMsg
  docUpdated : Bool
  closed : List Nat
deriving DecidableEq

/-- The `ws.on('message', ...)` handler of yjsServer.js lines 54-95.
`frame = none` models a frame that raises during decoding: the `catch` at
lines 92-94 only logs the error.  A SyncStep1 frame is answered with a
SyncStep2 reply when the sender is open (lines 62-72); SyncStep2 and update
frames are applied to the document (lines 73-81); update and awareness
frames are re-broadcast verbatim (lines 77-88); unknown types are logged
and ignored (lines 89-90). -/
def handleYjsMessage (clients : List YClient) (sender : YClient)
    (docName : String) (frame : Option YjsMsg) : YjsStep :=
  match frame with
  | none => ⟨[], none, [], false, []⟩
  | some .syncStep1 =>
    ⟨[], none, if sender.readyState = 1 then [.syncStep2] else [], false, []⟩
  | some .syncStep2 => ⟨[], none, [], true, []⟩
  | some (.update p) =>
    ⟨broadcastMessage clients sender docName, some (.update p), [], true, []⟩
  | some (.awareness p) =>
    ⟨broadcastMessage clients sender docName, some (.awareness p), [], false, []⟩
  | some (.unknown _) => ⟨[], none, [], false, []⟩

/-! ## The in-memory Yjs document map (yjsServer.js lines 22, 140-145) -/

/-- A `Y.Doc` object: its allocation identity and the content it holds at
creation time (`new Y.Doc()` is empty). -/
structure YDoc where
  docId : Nat
  content : String
deriving DecidableEq

/-- The module-level `docs` map (yjsServer.js line 22) together with an
allocation counter giving each `new Y.Doc()` a fresh identity. -/
structure DocsState where
  docs : List (String × YDoc)
  nextId : Nat
deriving DecidableEq

/-- `getOrCreateDoc(docName)` (yjsServer.js lines 140-145): if the map has
no entry for the name, insert a fresh empty `Y.Doc`; then return the mapped
document. -/
def getOrCreateDoc (st : DocsState) (docName : String) : DocsState × YDoc :=
  let st1 := if (st.docs.lookup docName).isSome then st
    else ⟨st.docs ++ [(docName, ⟨st.nextId, ""⟩)], st.nextId + 1⟩
  (st1, (st1.docs.lookup docName).getD ⟨0, ""⟩)

/-- Iterate `getOrCreateDoc` for the same name, collecting the returned
documents in call order. -/
def getOrCreateDocRuns (docName : String) :
    Nat → DocsState → DocsState × List YDoc
  | 0, st => (st, [])
  | n + 1, st =>
    let p := getOrCreateDoc st docName
    let q := getOrCreateDocRuns docName n p.1
    (q.1, p.2 :: q.2)

/-! ## Document-id suffix stripping (sharedbServer.js middlewares)

Both the `readSnapshots` middleware (lines 119-128) and the `apply`
middleware (lines 179-188) take the part of the document id after the
`sessionId/` prefix and run the same logic:

    if (filenameWithSuffix.endsWith('-definition')) {
      actualFilename = filenameWithSuffix.replace('-definition', '');
      fieldName = 'definition';
    } else if (filenameWithSuffix.endsWith('-details')) { ... }

JavaScript `String.replace` with a string pattern removes the FIRST
occurrence of the pattern, not the trailing one.  Names are modelled as
`List Char`. -/

/-- JavaScript `s.replace(pat, '')`: remove the first occurrence of `pat`
from `s`; `s` is returned unchanged when `pat` does not occur. -/
def stripFirstL (pat : List Char) : List Char → List Char
  | [] => []
  | c :: cs =>
    if pat.isPrefixOf (c :: cs) then List.drop pat.length (c :: cs)
    else c :: stripFirstL pat cs

/-- JavaScript `s.endsWith(pat)`. -/
def endsWithL (s pat : List Char) : Bool :=
  pat.isSuffixOf s

/-- The characters of `"-definition"`. -/
def defSuffix : List Char := "-definition".data

/-- The characters of `"-details"`. -/
def detSuffix : List Char := "-details".data

/-- The `(actualFilename, fieldName)` pair computed by the `apply`
middleware from the name part of the document id
(sharedbServer.js lines 179-188). -/
def applyActualFilenameField (filenameWithSuffix : List Char) :
    List Char × Option (List Char) :=
  if endsWithL filenameWithSuffix defSuffix then
    (stripFirstL defSuffix filenameWithSuffix, some "definition".data)
  else if endsWithL filenameWithSuffix detSuffix then
    (stripFirstL detSuffix filenameWithSuffix, some "details".data)
  else (filenameWithSuffix, none)

/-- The `(actualFilename, fieldName)` pair computed by the `readSnapshots`
middleware from the name part of the snapshot id
(sharedbServer.js lines 119-128); the source duplicates the `apply`
middleware logic verbatim. -/
def readSnapshotsActualFilenameField (filenameWithSuffix : List Char) :
    List Char × Option (List Char) :=
  if endsWithL filenameWithSuffix defSuffix then
    (stripFirstL defSuffix filenameWithSuffix, some "definition".data)
  else if endsWithL filenameWithSuffix detSuffix then
    (stripFirstL detSuffix filenameWithSuffix, some "details".data)
  else (filenameWithSuffix, none)

/-! ## The `apply` middleware outcome (sharedbServer.js lines 161-234)

The middleware receives the applied operation's context, re-fetches the
document, saves its content to the page file, and calls `next()`.  All
failures are caught: a fetch error is logged and the promise resolved
(lines 196-199); a save error is caught by the inner `catch` and logged
(lines 221-223); any other error is caught by the outer `catch` and logged
(lines 228-230).  `next()` is reached on every path and no error object is
ever passed to it, so the operation is never rejected.  `saveWikiPage`
itself (wikiParser.js) catches its own errors and returns `false`, so the
save outcome is modelled as `Except String Bool`: `Except.error` for a
thrown error, `Except.ok false` for a reported failure. -/

/-- Observable outcome of the `apply` middleware: whether `next()` was
called, the error (if any) surfaced to the submitting client, the document
content after the middleware ran (the middleware never writes the
document), and the messages logged to the console. -/
structure ApplyOutcome where
  nextCalled : Bool
  clientError : Option String
  docContentAfter : Option String
  errorLogs : List String
deriving DecidableEq

/-- JavaScript `s.split(sep)` for a single-character separator. -/
def jsSplit (sep : Char) : List Char → List (List Char)
  | [] => [[]]
  | c :: cs =>
    match jsSplit sep cs with
    | [] => [[c]]
    | h :: t => if c = sep then [] :: h :: t else (c :: h) :: t

/-- The `apply` middleware of sharedbServer.js lines 161-234.  `fetchErr`
is whether `doc.fetch` reported an error; `docContent` is `doc.data.content`
(`none` when `doc.data` or the field is undefined); `saveResult` is the
outcome of the `saveWikiPage` call. -/
def applyMiddleware (collection : String) (id : List Char) (fetchErr : Bool)
    (docContent : Option String) (saveResult : Except String Bool) :
    ApplyOutcome :=
  if collection = "wiki-pages" then
    if (jsSplit '/' id).length ≠ 2 then
      ⟨true, none, docContent, ["Invalid document ID format"]⟩
    else if fetchErr then
      ⟨true, none, docContent, ["Error fetching document"]⟩
    else
      match docContent with
      | none => ⟨true, none, none, []⟩
      | some c =>
        match saveResult with
        | .error e => ⟨true, none, some c, ["Error saving: " ++ e]⟩
        | .ok _ => ⟨true, none, some c, []⟩
  else ⟨true, none, docContent, []⟩

/-! ## Session lifecycle (yjsServer.js lines 147-291) -/

/-- A value of the `sessions` map (yjsServer.js lines 158-165). -/
structure SessionRec where
  secretKey : Option String
  creator : Option String
  directory : String
deriving DecidableEq

/-- The state `deleteSession` acts on: the in-memory `sessions` map, the
in-memory `docs` map and `docAwareness` map (awareness modelled by
identity), the session rows of the database, and the session directories
on disk. -/
structure ServerState where
  sessions : List (String × SessionRec)
  docsState : DocsState
  docAwareness : List (String × Nat)
  dbSessions : List String
  diskDirs : List String
deriving DecidableEq

/-- `deleteSession(sessionId)` (yjsServer.js lines 251-291).  When the
session id is absent from the in-memory map, the function throws
`'Session not found'` (lines 254-258) before any of its effects: the
directory removal (line 263), the database delete (line 267), the map
removals (lines 270-283) are all unreached.  Otherwise it removes the
directory, the database row, the map entry, and every cached doc and
awareness entry whose name starts with `sessionId + '/'`. -/
def deleteSession (st : ServerState) (sessionId : String) :
    ServerState × Except String Bool :=
  match st.sessions.lookup sessionId with
  | none => (st, Except.error "Session not found")
  | some _ =>
    let keep := fun (e : String × YDoc) =>
      !(e.1.startsWith (sessionId ++ "/"))
    let keepA := fun (e : String × Nat) =>
      !(e.1.startsWith (sessionId ++ "/"))
    (⟨(st.sessions.filter (fun e => e.1 != sessionId)),
      ⟨st.docsState.docs.filter keep, st.docsState.nextId⟩,
      st.docAwareness.filter keepA,
      st.dbSessions.filter (fun s => s != sessionId),
      st.diskDirs.filter (fun s => s != sessionId)⟩,
     Except.ok true)

/-! ## Helper lemmas -/

theorem lookup_none_not_mem {α β} [BEq α] [LawfulBEq α]
    {l : List (α × β)} {a : α} {b : β}
    (h : List.lookup a l = none) : (a, b) ∉ l := by
  induction l with
  | nil => simp
  | cons e rest ih =>
    obtain ⟨k, v⟩ := e
    by_cases hk : a = k
    · subst hk
      simp [List.lookup] at h
    · simp only [List.lookup, beq_eq_false_iff_ne, ne_eq] at h
      rw [show (a == k) = false from by simpa using hk] at h
      simp only [List.mem_cons, not_or]
      exact ⟨by simp [hk], ih h⟩

theorem mem_of_lookup_eq_some {α β} [BEq α] [LawfulBEq α]
    {l : List (α × β)} {a : α} {b : β}
    (h : List.lookup a l = some b) : (a, b) ∈ l := by
  induction l with
  | nil => simp [List.lookup] at h
  | cons e rest ih =>
    obtain ⟨k, v⟩ := e
    by_cases hk : a = k
    · subst hk
      simp [List.lookup] at h
      simp [h]
    · rw [show List.lookup a ((k, v) :: rest) = List.lookup a rest from by
        simp [List.lookup, show (a == k) = false from by simpa using hk]] at h
      exact List.mem_cons_of_mem _ (ih h)

theorem lookup_setEntry_self (l : Conns) (ws : Nat) (info : UserInfo) :
    List.lookup ws (setEntry l ws info) = some info := by
  induction l with
  | nil => simp [setEntry, List.lookup]
  | cons e rest ih =>
    by_cases h : e.1 = ws
    · simp [setEntry, h, List.lookup]
    · simp only [setEntry, h, if_false]
      rw [show List.lookup ws (e :: setEntry rest ws info) =
            List.lookup ws (setEntry rest ws info) from by
        obtain ⟨k, v⟩ := e
        simp only at h
        simp [List.lookup, show (ws == k) = false from by
          simpa using fun hh => h hh.symm]]
      exact ih

theorem lookup_setEntry_ne (l : Conns) (ws : Nat) (info : UserInfo)
    (k : Nat) (h : k ≠ ws) :
    List.lookup k (setEntry l ws info) = List.lookup k l := by
  induction l with
  | nil => simp [setEntry, List.lookup, show (k == ws) = false from by simpa using h]
  | cons e rest ih =>
    by_cases he : e.1 = ws
    · obtain ⟨ek, ev⟩ := e
      simp only at he
      subst he
      simp [setEntry, List.lookup,
        show (k == ek) = false from by simpa using h]
    · obtain ⟨ek, ev⟩ := e
      simp only at he
      simp only [setEntry, he, if_false]
      by_cases hkk : k = ek
      · subst hkk
        simp [List.lookup]
      · simp [List.lookup, show (k == ek) = false from by simpa using hkk, ih]

theorem lookup_eraseEntry_self (l : Conns) (ws : Nat) :
    List.lookup ws (eraseEntry l ws) = none := by
  induction l with
  | nil => simp [eraseEntry, List.lookup]
  | cons e rest ih =>
    by_cases h : e.1 = ws
    · simpa [eraseEntry, List.filter, h] using ih
    · simp only [eraseEntry, List.filter] at ih ⊢
      rw [show (e.1 != ws) = true from by simpa using h]
      obtain ⟨ek, ev⟩ := e
      simp only at h
      simp [List.lookup, show (ws == ek) = false from by
        simpa using fun hh => h hh.symm, ih]

theorem broadcastPresence_users_eq (conns : Conns) (clients : List WsClient) :
    ∀ b ∈ broadcastPresence conns clients, b.2.users = conns.map Prod.snd := by
  intro b hb
  simp only [broadcastPresence, List.mem_map, List.mem_filter] at hb
  obtain ⟨c, _, rfl⟩ := hb
  rfl

theorem mem_broadcastPresence_of_open (conns : Conns) (clients : List WsClient)
    (cl : WsClient) (hcl : cl ∈ clients) (hr : cl.readyState = 1) :
    (cl.id, (⟨conns.map Prod.snd⟩ : PresenceBroadcast)) ∈
      broadcastPresence conns clients := by
  simp only [broadcastPresence, List.mem_map, List.mem_filter]
  exact ⟨cl, ⟨hcl, by simp [hr]⟩, rfl⟩

/-! ## Claim theorems -/

/-- C1: an incoming "update" frame on the operational-transform channel for
document `d` is forwarded verbatim, and its broadcast reaches exactly the
clients whose `docName` is `d`, whose `readyState` is open (`1`), and which
are not the originating connection; in particular the originator never
receives its own operation back. -/
theorem c1_update_broadcast_exact (clients : List YClient) (sender : YClient)
    (d : String) (p : Nat) (c : YClient) :
    (handleYjsMessage clients sender d (some (.update p))).broadcastFrame
        = some (.update p) ∧
    (c ∈ (handleYjsMessage clients sender d
        (some (.update p))).broadcastTargets ↔
      (c ∈ clients ∧ c.docName = d ∧ c.readyState = 1 ∧ c.id ≠ sender.id)) := by
  refine ⟨rfl, ?_⟩
  simp only [handleYjsMessage, broadcastMessage, List.mem_filter,
    Bool.and_eq_true, bne_iff_ne, beq_iff_eq, ne_eq]
  tauto

/-- Witness for C1 at a concrete input: a second open client of the same
document receives the update. -/
theorem c1_update_broadcast_exact_witness :
    (⟨2, "doc", 1⟩ : YClient) ∈
      (handleYjsMessage [⟨1, "doc", 1⟩, ⟨2, "doc", 1⟩] ⟨1, "doc", 1⟩ "doc"
        (some (.update 7))).broadcastTargets :=
  (c1_update_broadcast_exact [⟨1, "doc", 1⟩, ⟨2, "doc", 1⟩] ⟨1, "doc", 1⟩
    "doc" 7 ⟨2, "doc", 1⟩).2.mpr (by decide)

/-- C8: a "cursor-update" frame from a presence connection that never sent
"user-info" (its key is absent from the connections map) is ignored: the
map, the sends, and the set of server-closed connections are all unchanged. -/
theorem c8_cursor_update_requires_registration (conns : Conns)
    (clients : List WsClient) (ws : Nat) (uid fname : String)
    (cp se : Option Int) (h : List.lookup ws conns = none) :
    handlePresenceMessage conns clients ws
      (some (.cursorUpdate uid fname cp se)) = ⟨conns, [], []⟩ := by
  simp [handlePresenceMessage, h]

/-- Witness for C8 at a concrete input. -/
theorem c8_cursor_update_requires_registration_witness :
    handlePresenceMessage [] [⟨0, 1⟩] 0
      (some (.cursorUpdate "u1" "f.hml" (some 5) (some 6))) = ⟨[], [], []⟩ :=
  c8_cursor_update_requires_registration [] [⟨0, 1⟩] 0 "u1" "f.hml"
    (some 5) (some 6) rfl

/-- C9: a "cursor-update" frame from a registered presence connection stores
the received `cursorPosition` and `selectionEnd` verbatim (no clamping), and
every send of the resulting "presence" broadcast carries exactly the stored
records, the updated record among them. -/
theorem c9_cursor_update_stored_verbatim (conns : Conns)
    (clients : List WsClient) (ws : Nat) (info : UserInfo)
    (uid fname : String) (cp se : Option Int)
    (h : List.lookup ws conns = some info) :
    List.lookup ws (handlePresenceMessage conns clients ws
        (some (.cursorUpdate uid fname cp se))).conns =
      some ⟨info.userId, info.userName, info.color, fname, cp, se⟩ ∧
    (handlePresenceMessage conns clients ws
        (some (.cursorUpdate uid fname cp se))).sends =
      broadcastPresence (handlePresenceMessage conns clients ws
        (some (.cursorUpdate uid fname cp se))).conns clients ∧
    ∀ b ∈ (handlePresenceMessage conns clients ws
        (some (.cursorUpdate uid fname cp se))).sends,
      b.2.users = (handlePresenceMessage conns clients ws
        (some (.cursorUpdate uid fname cp se))).conns.map Prod.snd ∧
      (⟨info.userId, info.userName, info.color, fname, cp, se⟩ : UserInfo)
        ∈ b.2.users := by
  have hstep : handlePresenceMessage conns clients ws
      (some (.cursorUpdate uid fname cp se)) =
      ⟨setEntry conns ws ⟨info.userId, info.userName, info.color, fname, cp, se⟩,
       broadcastPresence
         (setEntry conns ws ⟨info.userId, info.userName, info.color, fname, cp, se⟩)
         clients, []⟩ := by
    simp [handlePresenceMessage, h]
  rw [hstep]
  refine ⟨lookup_setEntry_self _ _ _, rfl, ?_⟩
  intro b hb
  refine ⟨broadcastPresence_users_eq _ _ b hb, ?_⟩
  rw [broadcastPresence_users_eq _ _ b hb]
  exact List.mem_map_of_mem _
    (mem_of_lookup_eq_some (lookup_setEntry_self _ _ _))

/-- Witness for C9 at a concrete input: a cursor position of 1000 is stored
and broadcast as-is. -/
theorem c9_cursor_update_stored_verbatim_witness :
    List.lookup 0 (handlePresenceMessage
        [(0, ⟨"u1", "Ann", "red", "f.hml", some 0, some 0⟩)] [⟨0, 1⟩] 0
        (some (.cursorUpdate "u1" "f.hml" (some 1000) (some 1000)))).conns =
      some ⟨"u1", "Ann", "red", "f.hml", some 1000, some 1000⟩ :=
  (c9_cursor_update_stored_verbatim
    [(0, ⟨"u1", "Ann", "red", "f.hml", some 0, some 0⟩)] [⟨0, 1⟩] 0
    ⟨"u1", "Ann", "red", "f.hml", some 0, some 0⟩ "u1" "f.hml"
    (some 1000) (some 1000) rfl).1

/-- C10: calling `deleteSession` for a session id absent from the in-memory
sessions map throws "Session not found" and performs no side effects at all:
the sessions map, doc cache, awareness cache, database rows, and disk
directories are returned unchanged, even when the id is present in the
database or on disk. -/
theorem c10_deleteSession_not_found (st : ServerState) (sessionId : String)
    (h : st.sessions.lookup sessionId = none) :
    deleteSession st sessionId = (st, Except.error "Session not found") := by
  unfold deleteSession
  rw [h]

/-- Witness for C10 at a concrete input whose database and disk both contain
the session and whose doc cache holds a document of the session: nothing is
deleted. -/
theorem c10_deleteSession_not_found_witness :
    deleteSession
      ⟨[], ⟨[("s1/p.hml", ⟨0, "x"⟩)], 1⟩, [("s1/p.hml", 0)], ["s1"], ["s1"]⟩
      "s1" =
    (⟨[], ⟨[("s1/p.hml", ⟨0, "x"⟩)], 1⟩, [("s1/p.hml", 0)], ["s1"], ["s1"]⟩,
     Except.error "Session not found") :=
  c10_deleteSession_not_found _ "s1" rfl

/-- C5: the `apply` middleware always calls `next()` with no error, never
surfaces an error to the submitting client, and never rolls back the
in-memory document content, on every input; and when the durable save fails
(a thrown error) the failure is merely logged while the outcome is otherwise
identical to a successful save. -/
theorem c5_save_failure_only_logged :
    (∀ (collection : String) (id : List Char) (fetchErr : Bool)
        (docContent : Option String) (saveResult : Except String Bool),
      (applyMiddleware collection id fetchErr docContent
          saveResult).nextCalled = true ∧
      (applyMiddleware collection id fetchErr docContent
          saveResult).clientError = none ∧
      (applyMiddleware collection id fetchErr docContent
          saveResult).docContentAfter = docContent) ∧
    (∀ (id : List Char) (c e : String), (jsSplit '/' id).length = 2 →
      applyMiddleware "wiki-pages" id false (some c) (Except.error e) =
        ⟨true, none, some c, ["Error saving: " ++ e]⟩) := by
  constructor
  · intro collection id fetchErr docContent saveResult
    unfold applyMiddleware
    split
    · split
      · simp
      · split
        · simp
        · split
          · simp
          · split <;> simp
    · simp
  · intro id c e h
    simp [applyMiddleware, h]

/-- Witness for C5 at a concrete input: a failing save of a well-formed
document id is logged and invisible to the client. -/
theorem c5_save_failure_only_logged_witness :
    applyMiddleware "wiki-pages" ("s1/p.hml".data) false (some "hello")
      (Except.error "disk full") =
    ⟨true, none, some "hello", ["Error saving: disk full"]⟩ :=
  c5_save_failure_only_logged.2 ("s1/p.hml".data) "hello" "disk full"
    (by decide)

/-- C7 counterexample: a malformed frame does NOT close the connection, on
either channel.  On the presence channel an unparseable frame from
connection 0 leaves the connections map unchanged, sends nothing, and closes
nothing; on the operational-transform channel a frame that raises during
decoding broadcasts nothing, mutates nothing, and closes nothing.  The
claimed close of the offending connection never happens. -/
theorem c7_malformed_frame_counterexample :
    (handlePresenceMessage [(0, ⟨"u1", "Ann", "red", "f.hml", some 0, some 0⟩)]
        [⟨0, 1⟩] 0 none).closedByServer = [] ∧
    handlePresenceMessage [(0, ⟨"u1", "Ann", "red", "f.hml", some 0, some 0⟩)]
        [⟨0, 1⟩] 0 none =
      ⟨[(0, ⟨"u1", "Ann", "red", "f.hml", some 0, some 0⟩)], [], []⟩ ∧
    (handleYjsMessage [⟨0, "d", 1⟩] ⟨0, "d", 1⟩ "d" none).closed = [] ∧
    handleYjsMessage [⟨0, "d", 1⟩] ⟨0, "d", 1⟩ "d" none =
      ⟨[], none, [], false, []⟩ := by
  decide

/-- C7 amended: a malformed wire frame on either channel is caught and only
logged; the offending connection is left open (the server closes nothing)
and nothing else is affected — the presence map is unchanged and no message
is sent, and on the operational-transform channel no broadcast, no reply,
and no document mutation happens. -/
theorem c7_malformed_frame_ignored :
    (∀ (conns : Conns) (clients : List WsClient) (ws : Nat),
      handlePresenceMessage conns clients ws none = ⟨conns, [], []⟩) ∧
    (∀ (clients : List YClient) (sender : YClient) (d : String),
      handleYjsMessage clients sender d none = ⟨[], none, [], false, []⟩) :=
  ⟨fun _ _ _ => rfl, fun _ _ _ => rfl⟩

/-- C6 counterexample: the "presence" broadcast is not scoped to the
affected document.  With connection 0 registered for "fileA" and connection
1 registered for "fileB", a cursor-update from connection 0 (affecting
"fileA") is delivered to connection 1 as well, and the payload includes the
record of "fileB". -/
theorem c6_presence_broadcast_counterexample :
    ∃ b ∈ (handlePresenceMessage
        [(0, ⟨"alice", "Alice", "red", "fileA", some 1, some 1⟩),
         (1, ⟨"bob", "Bob", "blue", "fileB", some 2, some 2⟩)]
        [⟨0, 1⟩, ⟨1, 1⟩] 0
        (some (.cursorUpdate "alice" "fileA" (some 3) (some 4)))).sends,
      b.1 = 1 ∧
      ∃ u ∈ b.2.users, u.filename = "fileB" ∧ u.filename ≠ "fileA" := by
  decide

/-- C6 amended: a "user-info" message, and a "cursor-update" message from a
registered connection, trigger a "presence" broadcast that is delivered to
every open client of the WebSocket server — the originator and connections
subscribed to other documents included — and whose payload lists the stored
records of all connections of all documents; per-document filtering is left
to clients. -/
theorem c6_presence_broadcast_global (conns : Conns)
    (clients : List WsClient) (ws : Nat) :
    (∀ (uid uname color fname : String) (cp se : Option Int),
      (∀ cl ∈ clients, cl.readyState = 1 →
        (cl.id, (⟨(handlePresenceMessage conns clients ws
            (some (.userInfo uid uname color fname cp se))).conns.map
              Prod.snd⟩ : PresenceBroadcast)) ∈
          (handlePresenceMessage conns clients ws
            (some (.userInfo uid uname color fname cp se))).sends) ∧
      ∀ b ∈ (handlePresenceMessage conns clients ws
          (some (.userInfo uid uname color fname cp se))).sends,
        b.2.users = (handlePresenceMessage conns clients ws
          (some (.userInfo uid uname color fname cp se))).conns.map
            Prod.snd) ∧
    (∀ (uid fname : String) (cp se : Option Int) (info : UserInfo),
      List.lookup ws conns = some info →
      (∀ cl ∈ clients, cl.readyState = 1 →
        (cl.id, (⟨(handlePresenceMessage conns clients ws
            (some (.cursorUpdate uid fname cp se))).conns.map
              Prod.snd⟩ : PresenceBroadcast)) ∈
          (handlePresenceMessage conns clients ws
            (some (.cursorUpdate uid fname cp se))).sends) ∧
      ∀ b ∈ (handlePresenceMessage conns clients ws
          (some (.cursorUpdate uid fname cp se))).sends,
        b.2.users = (handlePresenceMessage conns clients ws
          (some (.cursorUpdate uid fname cp se))).conns.map Prod.snd) := by
  constructor
  · intro uid uname color fname cp se
    constructor
    · intro cl hcl hr
      exact mem_broadcastPresence_of_open _ clients cl hcl hr
    · intro b hb
      exact broadcastPresence_users_eq _ _ b hb
  · intro uid fname cp se info h
    have hstep : handlePresenceMessage conns clients ws
        (some (.cursorUpdate uid fname cp se)) =
        ⟨setEntry conns ws
           ⟨info.userId, info.userName, info.color, fname, cp, se⟩,
         broadcastPresence
           (setEntry conns ws
             ⟨info.userId, info.userName, info.color, fname, cp, se⟩)
           clients, []⟩ := by
      simp [handlePresenceMessage, h]
    rw [hstep]
    constructor
    · intro cl hcl hr
      exact mem_broadcastPresence_of_open _ clients cl hcl hr
    · intro b hb
      exact broadcastPresence_users_eq _ _ b hb

/-- Witness for C6 (amended) at a concrete input: a connection registered
for a different document receives the broadcast. -/
theorem c6_presence_broadcast_global_witness :
    ((1 : Nat), (⟨(handlePresenceMessage
        [(0, ⟨"alice", "Alice", "red", "fileA", some 1, some 1⟩),
         (1, ⟨"bob", "Bob", "blue", "fileB", some 2, some 2⟩)]
        [⟨0, 1⟩, ⟨1, 1⟩] 0
        (some (.userInfo "alice" "Alice" "red" "fileA" (some 3) (some 4)))).conns.map
          Prod.snd⟩ : PresenceBroadcast)) ∈
      (handlePresenceMessage
        [(0, ⟨"alice", "Alice", "red", "fileA", some 1, some 1⟩),
         (1, ⟨"bob", "Bob", "blue", "fileB", some 2, some 2⟩)]
        [⟨0, 1⟩, ⟨1, 1⟩] 0
        (some (.userInfo "alice" "Alice" "red" "fileA" (some 3) (some 4)))).sends :=
  ((c6_presence_broadcast_global
      [(0, ⟨"alice", "Alice", "red", "fileA", some 1, some 1⟩),
       (1, ⟨"bob", "Bob", "blue", "fileB", some 2, some 2⟩)]
      [⟨0, 1⟩, ⟨1, 1⟩] 0).1 "alice" "Alice" "red" "fileA" (some 3)
        (some 4)).1 ⟨1, 1⟩ (by decide) rfl

theorem lookup_append_of_none {α β} [BEq α] (l l' : List (α × β)) (k : α)
    (h : List.lookup k l = none) :
    List.lookup k (l ++ l') = List.lookup k l' := by
  induction l with
  | nil => rfl
  | cons e rest ih =>
    obtain ⟨ek, ev⟩ := e
    cases hb : k == ek with
    | true => simp [List.lookup, hb] at h
    | false =>
      simp only [List.lookup, hb] at h
      simpa [List.lookup, hb] using ih h

theorem getOrCreateDoc_not_found (st : DocsState) (d : String)
    (h : st.docs.lookup d = none) :
    getOrCreateDoc st d =
      (⟨st.docs ++ [(d, ⟨st.nextId, ""⟩)], st.nextId + 1⟩,
       ⟨st.nextId, ""⟩) := by
  have hl : List.lookup d (st.docs ++ [(d, (⟨st.nextId, ""⟩ : YDoc))]) =
      some ⟨st.nextId, ""⟩ := by
    rw [lookup_append_of_none _ _ _ h]
    simp [List.lookup]
  simp [getOrCreateDoc, h, hl]

theorem getOrCreateDoc_found (st : DocsState) (d : String) (doc : YDoc)
    (h : st.docs.lookup d = some doc) :
    getOrCreateDoc st d = (st, doc) := by
  simp [getOrCreateDoc, h]

theorem getOrCreateDocRuns_found (d : String) (n : Nat) (st : DocsState)
    (doc : YDoc) (h : st.docs.lookup d = some doc) :
    getOrCreateDocRuns d n st = (st, List.replicate n doc) := by
  induction n with
  | zero => rfl
  | succ m ih =>
    simp only [getOrCreateDocRuns, getOrCreateDoc_found st d doc h, ih,
      List.replicate]

/-- C4: any sequence of `getOrCreateDoc` calls for one name creates at most
one new document.  If the name was never seen, the first of `n + 1` calls
creates exactly one fresh empty document and every call returns that same
document; if the name is already mapped to `doc`, any number of calls
changes nothing and every call returns `doc`. -/
theorem c4_getOrCreateDoc_idempotent (st : DocsState) (docName : String)
    (n : Nat) :
    (st.docs.lookup docName = none →
      getOrCreateDocRuns docName (n + 1) st =
        (⟨st.docs ++ [(docName, ⟨st.nextId, ""⟩)], st.nextId + 1⟩,
         List.replicate (n + 1) ⟨st.nextId, ""⟩)) ∧
    (∀ doc, st.docs.lookup docName = some doc →
      getOrCreateDocRuns docName n st = (st, List.replicate n doc)) := by
  constructor
  · intro h
    have hl : List.lookup docName
        (st.docs ++ [(docName, (⟨st.nextId, ""⟩ : YDoc))]) =
        some ⟨st.nextId, ""⟩ := by
      rw [lookup_append_of_none _ _ _ h]
      simp [List.lookup]
    simp only [getOrCreateDocRuns, getOrCreateDoc_not_found st docName h]
    rw [getOrCreateDocRuns_found docName n _ _ hl]
    simp [List.replicate]
  · intro doc h
    exact getOrCreateDocRuns_found docName n st doc h

/-- Witness for C4 at a concrete input: three calls on a fresh name create
one document with empty content and all return it. -/
theorem c4_getOrCreateDoc_idempotent_witness :
    getOrCreateDocRuns "s1/p.hml" 3 ⟨[], 5⟩ =
      (⟨[("s1/p.hml", ⟨5, ""⟩)], 6⟩, List.replicate 3 ⟨5, ""⟩) :=
  (c4_getOrCreateDoc_idempotent ⟨[], 5⟩ "s1/p.hml" 2).1 rfl

theorem endsWithL_append_self (F pat : List Char) :
    endsWithL (F ++ pat) pat = true := by
  simp [endsWithL, List.isSuffixOf_iff_suffix]

theorem endsWithL_det_def_false (F : List Char) :
    endsWithL (F ++ detSuffix) defSuffix = false := by
  rw [Bool.eq_false_iff]
  intro h
  rw [endsWithL, List.isSuffixOf_iff_suffix] at h
  have h2 : detSuffix <:+ F ++ detSuffix := List.suffix_append F detSuffix
  have h3 : detSuffix <:+ defSuffix :=
    List.suffix_of_suffix_length_le h2 h (by decide)
  exact absurd h3 (by decide)

theorem stripFirstL_append_of_no_early_match (pat F : List Char)
    (h : ∀ i, i < F.length → pat.isPrefixOf ((F ++ pat).drop i) = false) :
    stripFirstL pat (F ++ pat) = F := by
  induction F with
  | nil =>
    cases pat with
    | nil => rfl
    | cons c cs =>
      simp only [List.nil_append, stripFirstL]
      rw [if_pos (by simp [List.isPrefixOf_iff_prefix] :
        (c :: cs).isPrefixOf (c :: cs) = true)]
      exact List.drop_length _
  | cons c F' ih =>
    have h0 : pat.isPrefixOf (c :: (F' ++ pat)) = false := by
      have := h 0 (by simp)
      simpa using this
    show stripFirstL pat (c :: (F' ++ pat)) = c :: F'
    simp only [stripFirstL, h0, Bool.false_eq_true, if_false]
    have ih2 : stripFirstL pat (F' ++ pat) = F' := by
      refine ih ?_
      intro i hi
      have := h (i + 1) (by simpa using Nat.succ_lt_succ hi)
      simpa [List.drop_succ_cons] using this
    rw [ih2]

/-- C3 counterexample: stripping does not recover the original filename for
every filename.  For the filename "a-definitionb", the document id name part
is "a-definitionb-definition", and the `apply` middleware's
`replace('-definition', '')` removes the FIRST occurrence, yielding the page
file "ab-definition" rather than "a-definitionb". -/
theorem c3_suffix_strip_counterexample :
    applyActualFilenameField ("a-definitionb-definition".data) =
      ("ab-definition".data, some ("definition".data)) ∧
    "ab-definition".data ≠ "a-definitionb".data := by
  decide

/-- C3 amended: the `apply` and `readSnapshots` middlewares compute the same
`(actualFilename, fieldName)` pair from the same id name part, so they save
to and load from the same field of the same page file; and stripping
recovers the original filename exactly when the first occurrence of the
suffix pattern in `filename ++ suffix` is the final one (in particular this
fails for filenames such as "a-definitionb" that contain the pattern
earlier). -/
theorem c3_suffix_strip_amended :
    (∀ name, readSnapshotsActualFilenameField name =
      applyActualFilenameField name) ∧
    (∀ F : List Char,
      (∀ i, i < F.length →
        defSuffix.isPrefixOf ((F ++ defSuffix).drop i) = false) →
      applyActualFilenameField (F ++ defSuffix) =
        (F, some ("definition".data))) ∧
    (∀ F : List Char,
      (∀ i, i < F.length →
        detSuffix.isPrefixOf ((F ++ detSuffix).drop i) = false) →
      applyActualFilenameField (F ++ detSuffix) =
        (F, some ("details".data))) := by
  refine ⟨fun _ => rfl, ?_, ?_⟩
  · intro F h
    rw [applyActualFilenameField, endsWithL_append_self, if_pos rfl,
      stripFirstL_append_of_no_early_match defSuffix F h]
  · intro F h
    rw [applyActualFilenameField, endsWithL_det_def_false]
    simp only [Bool.false_eq_true, if_false]
    rw [endsWithL_append_self, if_pos rfl,
      stripFirstL_append_of_no_early_match detSuffix F h]

/-- Witness for C3 (amended) at a concrete input: for the filename
"page.hml" both suffixes are stripped back to "page.hml". -/
theorem c3_suffix_strip_amended_witness :
    applyActualFilenameField ("page.hml-definition".data) =
      ("page.hml".data, some ("definition".data)) ∧
    applyActualFilenameField ("page.hml-details".data) =
      ("page.hml".data, some ("details".data)) :=
  ⟨c3_suffix_strip_amended.2.1 ("page.hml".data) (by decide),
   c3_suffix_strip_amended.2.2 ("page.hml".data) (by decide)⟩

theorem lookup_eraseEntry_ne (l : Conns) (ws k : Nat) (h : k ≠ ws) :
    List.lookup k (eraseEntry l ws) = List.lookup k l := by
  induction l with
  | nil => rfl
  | cons e rest ih =>
    obtain ⟨ek, ev⟩ := e
    by_cases hw : ek = ws
    · subst hw
      rw [show eraseEntry ((ek, ev) :: rest) ek = eraseEntry rest ek from by
        simp [eraseEntry, List.filter]]
      rw [ih, show List.lookup k ((ek, ev) :: rest) = List.lookup k rest from by
        simp [List.lookup, show (k == ek) = false from by simpa using h]]
    · rw [show eraseEntry ((ek, ev) :: rest) ws =
          (ek, ev) :: eraseEntry rest ws from by
        simp [eraseEntry, List.filter,
          show (ek != ws) = true from by simpa using hw]]
      by_cases hkk : k = ek
      · subst hkk
        simp [List.lookup]
      · simp [List.lookup, show (k == ek) = false from by simpa using hkk, ih]

theorem presenceStep_lookup_none (conns : Conns) (clients : List WsClient)
    (e : PresenceEvent) (c : Nat) (hc : List.lookup c conns = none)
    (he : eventWs e ≠ c) :
    List.lookup c (presenceStepOf conns clients e).conns = none := by
  cases e with
  | close ws =>
    simp only [eventWs] at he
    simp only [presenceStepOf, handlePresenceClose]
    rw [lookup_eraseEntry_ne conns ws c (Ne.symm he)]
    exact hc
  | msg ws frame =>
    simp only [eventWs] at he
    cases frame with
    | none => exact hc
    | some d =>
      cases d with
      | userInfo uid uname color fname cp se =>
        simp only [presenceStepOf, handlePresenceMessage]
        rw [lookup_setEntry_ne conns ws _ c (Ne.symm he)]
        exact hc
      | cursorUpdate uid fname cp se =>
        cases hlk : List.lookup ws conns with
        | none => simpa [presenceStepOf, handlePresenceMessage, hlk] using hc
        | some info =>
          simp only [presenceStepOf, handlePresenceMessage, hlk]
          rw [lookup_setEntry_ne conns ws _ c (Ne.symm he)]
          exact hc
      | otherType => exact hc

theorem presenceStep_sends_users (conns : Conns) (clients : List WsClient)
    (e : PresenceEvent) :
    ∀ b ∈ (presenceStepOf conns clients e).sends,
      b.2.users = (presenceStepOf conns clients e).conns.map Prod.snd := by
  cases e with
  | close ws =>
    intro b hb
    exact broadcastPresence_users_eq _ _ b hb
  | msg ws frame =>
    cases frame with
    | none => intro b hb; simp [presenceStepOf, handlePresenceMessage] at hb
    | some d =>
      cases d with
      | userInfo uid uname color fname cp se =>
        intro b hb
        exact broadcastPresence_users_eq _ _ b hb
      | cursorUpdate uid fname cp se =>
        cases hlk : List.lookup ws conns with
        | none =>
          intro b hb
          simp [presenceStepOf, handlePresenceMessage, hlk] at hb
        | some info =>
          intro b hb
          simp only [presenceStepOf, handlePresenceMessage, hlk] at hb ⊢
          exact broadcastPresence_users_eq _ _ b hb
      | otherType =>
        intro b hb
        simp [presenceStepOf, handlePresenceMessage] at hb

theorem presenceRunSteps_lookup_none (clients : List WsClient) (c : Nat) :
    ∀ (events : List PresenceEvent) (conns : Conns),
      List.lookup c conns = none → (∀ e ∈ events, eventWs e ≠ c) →
      ∀ s ∈ presenceRunSteps clients events conns,
        List.lookup c s.conns = none := by
  intro events
  induction events with
  | nil =>
    intro conns hc he s hs
    simp [presenceRunSteps] at hs
  | cons e es ih =>
    intro conns hc he s hs
    simp only [presenceRunSteps, List.mem_cons] at hs
    have hstep := presenceStep_lookup_none conns clients e c hc
      (he e (by simp))
    cases hs with
    | inl h => rw [h]; exact hstep
    | inr h => exact ih _ hstep (fun e' he' => he e' (by simp [he'])) s h

theorem presenceRunSteps_sends_users (clients : List WsClient) :
    ∀ (events : List PresenceEvent) (conns : Conns),
      ∀ s ∈ presenceRunSteps clients events conns,
        ∀ b ∈ s.sends, b.2.users = s.conns.map Prod.snd := by
  intro events
  induction events with
  | nil =>
    intro conns s hs
    simp [presenceRunSteps] at hs
  | cons e es ih =>
    intro conns s hs
    simp only [presenceRunSteps, List.mem_cons] at hs
    cases hs with
    | inl h => rw [h]; exact presenceStep_sends_users conns clients e
    | inr h => exact ih _ s h

/-- C2 counterexample: after a registered connection closes, its entry is
removed, but a subsequent "presence" broadcast can still include that
connection's userId — whenever another connection registered the same
userId (for example the same user in two tabs).  Connection 0 registered
userId "alice" and closes; the broadcast still carries "alice". -/
theorem c2_presence_cleanup_counterexample :
    List.lookup 0 (handlePresenceClose
        [(0, ⟨"alice", "Alice", "red", "f.hml", some 1, some 1⟩),
         (1, ⟨"alice", "Alice", "blue", "f.hml", some 2, some 2⟩)]
        [⟨1, 1⟩] 0).conns = none ∧
    ∃ b ∈ (handlePresenceClose
        [(0, ⟨"alice", "Alice", "red", "f.hml", some 1, some 1⟩),
         (1, ⟨"alice", "Alice", "blue", "f.hml", some 2, some 2⟩)]
        [⟨1, 1⟩] 0).sends,
      ∃ u ∈ b.2.users, u.userId = "alice" := by
  decide

/-- C2 amended: after a connection closes, its entry is removed from the
connections map immediately and stays absent across any subsequent events
from other connections, so the close broadcast and every subsequent
"presence" broadcast carries a given record only on behalf of some
connection other than the closed one; the closed connection's userId can
therefore appear only if a different connection registered the same
userId. -/
theorem c2_presence_cleanup (conns : Conns) (clients : List WsClient)
    (c : Nat) (events : List PresenceEvent)
    (hev : ∀ e ∈ events, eventWs e ≠ c) :
    List.lookup c (handlePresenceClose conns clients c).conns = none ∧
    ∀ s ∈ (handlePresenceClose conns clients c) ::
        presenceRunSteps clients events
          (handlePresenceClose conns clients c).conns,
      List.lookup c s.conns = none ∧
      ∀ b ∈ s.sends, ∀ u ∈ b.2.users, ∃ k, (k, u) ∈ s.conns ∧ k ≠ c := by
  have hclose : List.lookup c (handlePresenceClose conns clients c).conns =
      none := lookup_eraseEntry_self conns c
  refine ⟨hclose, ?_⟩
  intro s hs
  have hnone : List.lookup c s.conns = none := by
    rcases List.mem_cons.mp hs with h | h
    · rw [h]; exact hclose
    · exact presenceRunSteps_lookup_none clients c events _ hclose hev s h
  have husers : ∀ b ∈ s.sends, b.2.users = s.conns.map Prod.snd := by
    rcases List.mem_cons.mp hs with h | h
    · intro b hb
      rw [h] at hb ⊢
      exact broadcastPresence_users_eq _ _ b hb
    · exact presenceRunSteps_sends_users clients events _ s h
  refine ⟨hnone, ?_⟩
  intro b hb u hu
  rw [husers b hb] at hu
  rcases List.mem_map.mp hu with ⟨kv, hkv, hkv2⟩
  obtain ⟨k1, u1⟩ := kv
  simp only at hkv2
  subst hkv2
  refine ⟨k1, hkv, ?_⟩
  intro hkc
  subst hkc
  exact lookup_none_not_mem hnone hkv

/-- Witness for C2 (amended) at a concrete input: one other registered
connection, one subsequent event from it. -/
theorem c2_presence_cleanup_witness :
    List.lookup 0 (handlePresenceClose
        [(0, ⟨"alice", "Alice", "red", "f.hml", some 1, some 1⟩),
         (1, ⟨"bob", "Bob", "blue", "f.hml", some 2, some 2⟩)]
        [⟨1, 1⟩] 0).conns = none :=
  (c2_presence_cleanup
    [(0, ⟨"alice", "Alice", "red", "f.hml", some 1, some 1⟩),
     (1, ⟨"bob", "Bob", "blue", "f.hml", some 2, some 2⟩)]
    [⟨1, 1⟩] 0
    [.msg 1 (some (.cursorUpdate "bob" "f.hml" (some 9) (some 9)))]
    (by decide)).1
